import Mathlib

/-!
Shallow embedding of the `arena` crate (src/src/lib.rs): a generational
slot arena.  `usize` is modelled as `Nat`; `NonZeroUsize::saturating_add`
is modelled by `satAdd1`, which saturates at `USIZE_MAX = 2^64 - 1`.
Operations that index the backing store unchecked (and hence can panic on
an out-of-bounds slot) return `Option`: `none` models the panic, which in
the source happens before any state change.
-/

namespace ArenaSpec

/-- Maximum value of a 64-bit `usize`. -/
def USIZE_MAX : Nat := 2 ^ 64 - 1

/-- `NonZeroUsize::saturating_add(1)`: add one, saturating at `usize::MAX`. -/
def satAdd1 (g : Nat) : Nat := min (g + 1) USIZE_MAX

/-- `Entry<T>` from lib.rs: a slot is vacant (holding the free-list link)
or occupied (holding the generation stamp and the item). -/
inductive Entry (T : Type) where
  | vacant (next : Option Nat)
  | occupied (generation : Nat) (item : T)
deriving DecidableEq

/-- `Index` from lib.rs: a handle, pairing a generation stamp with a slot. -/
structure Index where
  generation : Nat
  slot : Nat
deriving DecidableEq

/-- `Arena<T>` from lib.rs. -/
structure Arena (T : Type) where
  data : List (Entry T)
  generation : Nat
  free_head : Option Nat
  count : Nat
deriving DecidableEq

/-- `Entry::is_occupied`. -/
def Entry.is_occupied {T : Type} : Entry T → Bool
  | .occupied _ _ => true
  | .vacant _ => false

/-- `Arena::new`. -/
def Arena.new (T : Type) : Arena T :=
  { data := [], generation := 1, free_head := none, count := 0 }

/-- `Arena::push`: append an occupied slot stamped with the current
generation; the counter is not bumped. -/
def Arena.push {T : Type} (a : Arena T) (item : T) : Index × Arena T :=
  (⟨a.generation, a.data.length⟩,
   { a with data := a.data ++ [Entry.occupied a.generation item],
            count := a.count + 1 })

/-- `Arena::insert`: `self.free_head.take()` pops the head (leaving
`free_head = None` — the source never relinks the tail of the free list)
and overwrites that slot; with no free head it behaves as `push`. -/
def Arena.insert {T : Type} (a : Arena T) (item : T) : Index × Arena T :=
  match a.free_head with
  | some pos =>
      (⟨a.generation, pos⟩,
       { a with data := a.data.set pos (Entry.occupied a.generation item),
                free_head := none,
                count := a.count + 1 })
  | none => a.push item

/-- `Arena::remove`: panics (`none`) when the slot is out of bounds;
vacates the slot, pushes it on the free list and bumps the generation
when it is occupied with a matching stamp; otherwise a silent no-op. -/
def Arena.remove {T : Type} (a : Arena T) (index : Index) : Option (Arena T) :=
  match a.data.get? index.slot with
  | none => none
  | some (Entry.vacant _) => some a
  | some (Entry.occupied g _) =>
      if index.generation = g then
        some { a with
          data := a.data.set index.slot (Entry.vacant a.free_head),
          free_head := some index.slot,
          generation := satAdd1 a.generation,
          count := a.count - 1 }
      else some a

/-- `Arena::take`: panics (`none`) out of bounds; moves the item out of
any occupied slot (the stamp is not compared with the handle) and bumps
the generation; the vacated slot is not pushed onto the free list. -/
def Arena.take {T : Type} (a : Arena T) (index : Index) :
    Option (Arena T × Option T) :=
  match a.data.get? index.slot with
  | none => none
  | some (Entry.vacant _) => some (a, none)
  | some (Entry.occupied _ item) =>
      some ({ a with
        data := a.data.set index.slot (Entry.vacant a.free_head),
        generation := satAdd1 a.generation,
        count := a.count - 1 }, some item)

/-- `Arena::replace`: panics (`none`) out of bounds; over an occupied
slot stamps the new item with the bumped generation and returns the old
item; over a vacant slot stamps with the current generation (no bump),
increments the count and returns `none` — without unlinking the slot
from the free list. -/
def Arena.replace {T : Type} (a : Arena T) (index : Index) (item : T) :
    Option (Arena T × Index × Option T) :=
  match a.data.get? index.slot with
  | none => none
  | some (Entry.occupied _ original) =>
      some ({ a with
          data := a.data.set index.slot
            (Entry.occupied (satAdd1 a.generation) item),
          generation := satAdd1 a.generation },
        ⟨satAdd1 a.generation, index.slot⟩, some original)
  | some (Entry.vacant _) =>
      some ({ a with
          data := a.data.set index.slot (Entry.occupied a.generation item),
          count := a.count + 1 },
        ⟨a.generation, index.slot⟩, none)

/-- `Arena::set`: like `replace` but discarding the results. -/
def Arena.set {T : Type} (a : Arena T) (index : Index) (item : T) :
    Option (Arena T) :=
  match a.data.get? index.slot with
  | none => none
  | some (Entry.occupied _ _) =>
      some { a with
        data := a.data.set index.slot
          (Entry.occupied (satAdd1 a.generation) item),
        generation := satAdd1 a.generation }
  | some (Entry.vacant _) =>
      some { a with
        data := a.data.set index.slot (Entry.occupied a.generation item),
        count := a.count + 1 }

/-- `Arena::get`: bounds-checked lookup; yields the item only when the
slot is occupied with a stamp equal to the handle's generation. -/
def Arena.get {T : Type} (a : Arena T) (index : Index) : Option T :=
  match a.data.get? index.slot with
  | some (Entry.occupied g item) =>
      if index.generation = g then some item else none
  | _ => none

/-- `Arena::get_mut`: same validation as `get` (the returned value is
modelled by the item itself). -/
def Arena.get_mut {T : Type} (a : Arena T) (index : Index) : Option T :=
  match a.data.get? index.slot with
  | some (Entry.occupied g item) =>
      if index.generation = g then some item else none
  | _ => none

/-- `Arena::get2_mut`: asserts the two slots differ (`none` models the
panic), then validates each handle independently as `get_mut` does. -/
def Arena.get2_mut {T : Type} (arena : Arena T) (a b : Index) :
    Option (Option T × Option T) :=
  if a.slot = b.slot then none
  else some (arena.get_mut a, arena.get_mut b)

/-- `Arena::len`. -/
def Arena.len {T : Type} (a : Arena T) : Nat := a.count

/-- `Arena::is_empty`. -/
def Arena.is_empty {T : Type} (a : Arena T) : Bool := a.count == 0

/-- Number of occupied slots in the backing store. -/
def occupiedCount {T : Type} (a : Arena T) : Nat :=
  (a.data.filter (fun e => e.is_occupied)).length

/-- The chain of slot indices obtained by following the free list from a
given head, with fuel to guarantee termination even on corrupt states. -/
def freeChainAux {T : Type} (data : List (Entry T)) :
    Option Nat → Nat → List Nat
  | none, _ => []
  | some _, 0 => []
  | some i, fuel + 1 =>
      i :: (match data.get? i with
            | some (Entry.vacant next) => freeChainAux data next fuel
            | _ => [])

/-- The free list of an arena, traversed from `free_head`. -/
def Arena.freeChain {T : Type} (a : Arena T) : List Nat :=
  freeChainAux a.data a.free_head (a.data.length + 1)

/-- The handle is live: its slot holds an occupied entry whose stamp
equals the handle's generation (the condition under which `remove`
actually vacates the slot). -/
def isLiveAt {T : Type} (a : Arena T) (h : Index) : Bool :=
  match a.data.get? h.slot with
  | some (Entry.occupied g _) => g == h.generation
  | _ => false

/-- The slot holds an occupied entry (any stamp). -/
def isOccAt {T : Type} (a : Arena T) (i : Nat) : Bool :=
  match a.data.get? i with
  | some (Entry.occupied _ _) => true
  | _ => false

/-- One public mutating operation of the arena, performed with arguments
on which the source does not panic. -/
inductive Step {T : Type} : Arena T → Arena T → Prop where
  | push (a : Arena T) (item : T) : Step a (a.push item).2
  | insert (a : Arena T) (item : T) : Step a (a.insert item).2
  | remove (a a' : Arena T) (h : Index) :
      a.remove h = some a' → Step a a'
  | take (a a' : Arena T) (h : Index) (r : Option T) :
      a.take h = some (a', r) → Step a a'
  | replace (a a' : Arena T) (h h' : Index) (item : T) (r : Option T) :
      a.replace h item = some (a', h', r) → Step a a'
  | set (a a' : Arena T) (h : Index) (item : T) :
      a.set h item = some a' → Step a a'

/-- States reachable from `Arena.new` by any sequence of operations. -/
inductive Reachable {T : Type} : Arena T → Prop where
  | new : Reachable (Arena.new T)
  | step {a a' : Arena T} : Reachable a → Step a a' → Reachable a'

/-- States reachable from a given state by any sequence of operations
(including the empty one). -/
inductive ReachableFrom {T : Type} : Arena T → Arena T → Prop where
  | refl (a : Arena T) : ReachableFrom a a
  | step {a b c : Arena T} : ReachableFrom a b → Step b c → ReachableFrom a c

/-! ### Arithmetic facts about the saturating generation bump -/

lemma usize_max_eq : USIZE_MAX = 18446744073709551615 := by decide

lemma one_le_satAdd1 (g : Nat) : 1 ≤ satAdd1 g := by
  unfold satAdd1; rw [usize_max_eq]; omega

lemma satAdd1_le_max (g : Nat) : satAdd1 g ≤ USIZE_MAX := by
  unfold satAdd1; omega

lemma le_satAdd1 {g : Nat} (h : g ≤ USIZE_MAX) : g ≤ satAdd1 g := by
  unfold satAdd1; omega

lemma lt_satAdd1_of_le {x g : Nat} (h1 : x ≤ g) (h2 : x < USIZE_MAX) :
    x < satAdd1 g := by
  unfold satAdd1; omega

lemma satAdd1_max : satAdd1 USIZE_MAX = USIZE_MAX := by
  unfold satAdd1; omega

/-! ### List lookup helpers -/

lemma lt_of_get?_eq_some {α : Type} {l : List α} {j : Nat} {x : α}
    (h : l.get? j = some x) : j < l.length := by
  by_contra hn
  rw [List.get?_len_le (Nat.le_of_not_lt hn)] at h
  exact Option.noConfusion h

lemma get?_set_cases {α : Type} {l : List α} {k : Nat} {e : α} {j : Nat} {x : α}
    (h : (l.set k e).get? j = some x) :
    l.get? j = some x ∨ (j = k ∧ x = e) := by
  by_cases hk : k = j
  · subst hk
    by_cases hl : k < l.length
    · rw [List.get?_set_eq_of_lt _ hl] at h
      exact Or.inr ⟨rfl, (Option.some.inj h).symm⟩
    · rw [List.set_eq_of_length_le (Nat.le_of_not_lt hl)] at h
      exact Or.inl h
  · rw [List.get?_set_ne _ _ hk] at h
    exact Or.inl h

lemma get?_append_single {α : Type} {l : List α} {v : α} {j : Nat} {x : α}
    (h : (l ++ [v]).get? j = some x) :
    l.get? j = some x ∨ (j = l.length ∧ x = v) := by
  by_cases hj : j < l.length
  · rw [List.get?_append hj] at h
    exact Or.inl h
  · by_cases hj2 : j = l.length
    · subst hj2
      rw [List.get?_concat_length] at h
      exact Or.inr ⟨rfl, (Option.some.inj h).symm⟩
    · have hlen : (l ++ [v]).length ≤ j := by
        simp only [List.length_append, List.length_singleton]
        omega
      rw [List.get?_len_le hlen] at h
      exact Option.noConfusion h

/-! ### Characterisation of each operation by the state of the target slot -/

lemma remove_eq_none {T : Type} {a : Arena T} {h : Index}
    (hget : a.data.get? h.slot = none) : a.remove h = none := by
  unfold Arena.remove; rw [hget]

lemma remove_eq_vacant {T : Type} {a : Arena T} {h : Index} {nx : Option Nat}
    (hget : a.data.get? h.slot = some (Entry.vacant nx)) :
    a.remove h = some a := by
  unfold Arena.remove; rw [hget]

lemma remove_eq_occ {T : Type} {a : Arena T} {h : Index} {g : Nat} {x : T}
    (hget : a.data.get? h.slot = some (Entry.occupied g x)) :
    a.remove h =
      if h.generation = g then
        some { a with
          data := a.data.set h.slot (Entry.vacant a.free_head),
          free_head := some h.slot,
          generation := satAdd1 a.generation,
          count := a.count - 1 }
      else some a := by
  unfold Arena.remove; rw [hget]

lemma take_eq_none {T : Type} {a : Arena T} {h : Index}
    (hget : a.data.get? h.slot = none) : a.take h = none := by
  unfold Arena.take; rw [hget]

lemma take_eq_vacant {T : Type} {a : Arena T} {h : Index} {nx : Option Nat}
    (hget : a.data.get? h.slot = some (Entry.vacant nx)) :
    a.take h = some (a, none) := by
  unfold Arena.take; rw [hget]

lemma take_eq_occ {T : Type} {a : Arena T} {h : Index} {g : Nat} {x : T}
    (hget : a.data.get? h.slot = some (Entry.occupied g x)) :
    a.take h =
      some ({ a with
        data := a.data.set h.slot (Entry.vacant a.free_head),
        generation := satAdd1 a.generation,
        count := a.count - 1 }, some x) := by
  unfold Arena.take; rw [hget]

lemma replace_eq_none {T : Type} {a : Arena T} {h : Index} {v : T}
    (hget : a.data.get? h.slot = none) : a.replace h v = none := by
  unfold Arena.replace; rw [hget]

lemma replace_eq_vacant {T : Type} {a : Arena T} {h : Index} {v : T}
    {nx : Option Nat}
    (hget : a.data.get? h.slot = some (Entry.vacant nx)) :
    a.replace h v =
      some ({ a with
          data := a.data.set h.slot (Entry.occupied a.generation v),
          count := a.count + 1 },
        ⟨a.generation, h.slot⟩, none) := by
  unfold Arena.replace; rw [hget]

lemma replace_eq_occ {T : Type} {a : Arena T} {h : Index} {v : T} {g : Nat}
    {x : T} (hget : a.data.get? h.slot = some (Entry.occupied g x)) :
    a.replace h v =
      some ({ a with
          data := a.data.set h.slot
            (Entry.occupied (satAdd1 a.generation) v),
          generation := satAdd1 a.generation },
        ⟨satAdd1 a.generation, h.slot⟩, some x) := by
  unfold Arena.replace; rw [hget]

lemma set_eq_none {T : Type} {a : Arena T} {h : Index} {v : T}
    (hget : a.data.get? h.slot = none) : a.set h v = none := by
  unfold Arena.set; rw [hget]

lemma set_eq_vacant {T : Type} {a : Arena T} {h : Index} {v : T}
    {nx : Option Nat}
    (hget : a.data.get? h.slot = some (Entry.vacant nx)) :
    a.set h v =
      some { a with
        data := a.data.set h.slot (Entry.occupied a.generation v),
        count := a.count + 1 } := by
  unfold Arena.set; rw [hget]

lemma set_eq_occ {T : Type} {a : Arena T} {h : Index} {v : T} {g : Nat} {x : T}
    (hget : a.data.get? h.slot = some (Entry.occupied g x)) :
    a.set h v =
      some { a with
        data := a.data.set h.slot
          (Entry.occupied (satAdd1 a.generation) v),
        generation := satAdd1 a.generation } := by
  unfold Arena.set; rw [hget]

lemma get_eq_none_of_get?_none {T : Type} {a : Arena T} {h : Index}
    (hget : a.data.get? h.slot = none) : a.get h = none := by
  unfold Arena.get; rw [hget]

lemma get_eq_none_of_vacant {T : Type} {a : Arena T} {h : Index}
    {nx : Option Nat}
    (hget : a.data.get? h.slot = some (Entry.vacant nx)) : a.get h = none := by
  unfold Arena.get; rw [hget]

lemma get_eq_of_occ {T : Type} {a : Arena T} {h : Index} {g : Nat} {x : T}
    (hget : a.data.get? h.slot = some (Entry.occupied g x)) :
    a.get h = if h.generation = g then some x else none := by
  unfold Arena.get; rw [hget]

lemma insert_eq_of_free {T : Type} {a : Arena T} {pos : Nat} (v : T)
    (hfh : a.free_head = some pos) :
    a.insert v =
      (⟨a.generation, pos⟩,
       { a with data := a.data.set pos (Entry.occupied a.generation v),
                free_head := none,
                count := a.count + 1 }) := by
  unfold Arena.insert; rw [hfh]

lemma insert_eq_of_no_free {T : Type} {a : Arena T} (v : T)
    (hfh : a.free_head = none) : a.insert v = a.push v := by
  unfold Arena.insert; rw [hfh]

lemma isLiveAt_of_none {T : Type} {a : Arena T} {h : Index}
    (hget : a.data.get? h.slot = none) : isLiveAt a h = false := by
  unfold isLiveAt; rw [hget]

lemma isLiveAt_of_vacant {T : Type} {a : Arena T} {h : Index} {nx : Option Nat}
    (hget : a.data.get? h.slot = some (Entry.vacant nx)) :
    isLiveAt a h = false := by
  unfold isLiveAt; rw [hget]

lemma isLiveAt_of_occ {T : Type} {a : Arena T} {h : Index} {g : Nat} {x : T}
    (hget : a.data.get? h.slot = some (Entry.occupied g x)) :
    isLiveAt a h = (g == h.generation) := by
  unfold isLiveAt; rw [hget]

lemma isOccAt_of_vacant {T : Type} {a : Arena T} {i : Nat} {nx : Option Nat}
    (hget : a.data.get? i = some (Entry.vacant nx)) : isOccAt a i = false := by
  unfold isOccAt; rw [hget]

lemma isOccAt_of_occ {T : Type} {a : Arena T} {i : Nat} {g : Nat} {x : T}
    (hget : a.data.get? i = some (Entry.occupied g x)) : isOccAt a i = true := by
  unfold isOccAt; rw [hget]

/-! ### Shape of an arbitrary step

Every operation leaves `data` and `generation` in one of five shapes:
unchanged; appended occupied entry at the current generation; one slot
vacated with a bumped generation; one slot occupied at the current
generation (no bump); one slot occupied at the bumped generation. -/

lemma step_shape {T : Type} {a a' : Arena T} (hs : Step a a') :
    (a'.data = a.data ∧ a'.generation = a.generation) ∨
    (∃ v, a'.data = a.data ++ [Entry.occupied a.generation v] ∧
      a'.generation = a.generation) ∨
    (∃ i nx, a'.data = a.data.set i (Entry.vacant nx) ∧
      a'.generation = satAdd1 a.generation) ∨
    (∃ i v, a'.data = a.data.set i (Entry.occupied a.generation v) ∧
      a'.generation = a.generation) ∨
    (∃ i v, a'.data = a.data.set i (Entry.occupied (satAdd1 a.generation) v) ∧
      a'.generation = satAdd1 a.generation) := by
  cases hs with
  | push item =>
      exact Or.inr (Or.inl ⟨item, rfl, rfl⟩)
  | insert item =>
      cases hfh : a.free_head with
      | none =>
          rw [insert_eq_of_no_free item hfh]
          exact Or.inr (Or.inl ⟨item, rfl, rfl⟩)
      | some pos =>
          rw [insert_eq_of_free item hfh]
          exact Or.inr (Or.inr (Or.inr (Or.inl ⟨pos, item, rfl, rfl⟩)))
  | remove a' h hx =>
      cases hget : a.data.get? h.slot with
      | none => rw [remove_eq_none hget] at hx; exact Option.noConfusion hx
      | some e =>
          cases e with
          | vacant nx =>
              rw [remove_eq_vacant hget] at hx
              injection hx with hx
              subst hx
              exact Or.inl ⟨rfl, rfl⟩
          | occupied g x =>
              rw [remove_eq_occ hget] at hx
              by_cases hgen : h.generation = g
              · rw [if_pos hgen] at hx
                injection hx with hx
                subst hx
                exact Or.inr (Or.inr (Or.inl ⟨h.slot, a.free_head, rfl, rfl⟩))
              · rw [if_neg hgen] at hx
                injection hx with hx
                subst hx
                exact Or.inl ⟨rfl, rfl⟩
  | take a' h r hx =>
      cases hget : a.data.get? h.slot with
      | none => rw [take_eq_none hget] at hx; exact Option.noConfusion hx
      | some e =>
          cases e with
          | vacant nx =>
              rw [take_eq_vacant hget] at hx
              injection hx with hx
              injection hx with hx1 hx2
              subst hx1
              exact Or.inl ⟨rfl, rfl⟩
          | occupied g x =>
              rw [take_eq_occ hget] at hx
              injection hx with hx
              injection hx with hx1 hx2
              subst hx1
              exact Or.inr (Or.inr (Or.inl ⟨h.slot, a.free_head, rfl, rfl⟩))
  | replace a' h h' item r hx =>
      cases hget : a.data.get? h.slot with
      | none => rw [replace_eq_none hget] at hx; exact Option.noConfusion hx
      | some e =>
          cases e with
          | vacant nx =>
              rw [replace_eq_vacant hget] at hx
              injection hx with hx
              injection hx with hx1 hx2
              subst hx1
              exact Or.inr (Or.inr (Or.inr (Or.inl ⟨h.slot, item, rfl, rfl⟩)))
          | occupied g x =>
              rw [replace_eq_occ hget] at hx
              injection hx with hx
              injection hx with hx1 hx2
              subst hx1
              exact Or.inr (Or.inr (Or.inr (Or.inr ⟨h.slot, item, rfl, rfl⟩)))
  | set a' h item hx =>
      cases hget : a.data.get? h.slot with
      | none => rw [set_eq_none hget] at hx; exact Option.noConfusion hx
      | some e =>
          cases e with
          | vacant nx =>
              rw [set_eq_vacant hget] at hx
              injection hx with hx
              subst hx
              exact Or.inr (Or.inr (Or.inr (Or.inl ⟨h.slot, item, rfl, rfl⟩)))
          | occupied g x =>
              rw [set_eq_occ hget] at hx
              injection hx with hx
              subst hx
              exact Or.inr (Or.inr (Or.inr (Or.inr ⟨h.slot, item, rfl, rfl⟩)))

/-! ### Reachable-state invariant: the generation counter stays in
`[1, USIZE_MAX]` and every stamp stays in `[1, generation]`. -/

/-- Generation/stamp invariant of reachable arena states. -/
def Inv {T : Type} (a : Arena T) : Prop :=
  1 ≤ a.generation ∧ a.generation ≤ USIZE_MAX ∧
  ∀ i g x, a.data.get? i = some (Entry.occupied g x) → 1 ≤ g ∧ g ≤ a.generation

lemma inv_new (T : Type) : Inv (Arena.new T) := by
  refine ⟨le_refl 1, ?_, ?_⟩
  · show (1 : Nat) ≤ USIZE_MAX
    rw [usize_max_eq]; omega
  · intro i g x hget
    simp [Arena.new] at hget

lemma inv_step {T : Type} {a a' : Arena T} (hi : Inv a) (hs : Step a a') :
    Inv a' := by
  obtain ⟨h1, h2, h3⟩ := hi
  rcases step_shape hs with
    ⟨hd, hg⟩ | ⟨v, hd, hg⟩ | ⟨i, nx, hd, hg⟩ | ⟨i, v, hd, hg⟩ | ⟨i, v, hd, hg⟩
  all_goals refine ⟨?_, ?_, ?_⟩
  · rw [hg]; exact h1
  · rw [hg]; exact h2
  · intro j g x hget
    rw [hd] at hget
    rw [hg]
    exact h3 j g x hget
  · rw [hg]; exact h1
  · rw [hg]; exact h2
  · intro j g x hget
    rw [hd] at hget
    rw [hg]
    rcases get?_append_single hget with hold | ⟨_, hnew⟩
    · exact h3 j g x hold
    · injection hnew with hg2 hx2
      subst hg2
      exact ⟨h1, le_refl _⟩
  · rw [hg]; exact one_le_satAdd1 a.generation
  · rw [hg]; exact satAdd1_le_max a.generation
  · intro j g x hget
    rw [hd] at hget
    rw [hg]
    rcases get?_set_cases hget with hold | ⟨_, hnew⟩
    · have hb := h3 j g x hold
      exact ⟨hb.1, le_trans hb.2 (le_satAdd1 h2)⟩
    · exact Entry.noConfusion hnew
  · rw [hg]; exact h1
  · rw [hg]; exact h2
  · intro j g x hget
    rw [hd] at hget
    rw [hg]
    rcases get?_set_cases hget with hold | ⟨_, hnew⟩
    · exact h3 j g x hold
    · injection hnew with hg2 hx2
      subst hg2
      exact ⟨h1, le_refl _⟩
  · rw [hg]; exact one_le_satAdd1 a.generation
  · rw [hg]; exact satAdd1_le_max a.generation
  · intro j g x hget
    rw [hd] at hget
    rw [hg]
    rcases get?_set_cases hget with hold | ⟨_, hnew⟩
    · have hb := h3 j g x hold
      exact ⟨hb.1, le_trans hb.2 (le_satAdd1 h2)⟩
    · injection hnew with hg2 hx2
      subst hg2
      exact ⟨one_le_satAdd1 a.generation, le_refl _⟩

lemma reachable_inv {T : Type} {a : Arena T} (hr : Reachable a) : Inv a := by
  induction hr with
  | new => exact inv_new T
  | step _ hs ih => exact inv_step ih hs

/-! ### Permanent staleness of a handle whose generation is below the
saturation point -/

/-- The handle `h0` is permanently dead in state `a`: the counter has
passed its generation, and whatever occupies its slot carries a strictly
larger stamp. -/
def staleFree {T : Type} (h0 : Index) (a : Arena T) : Prop :=
  h0.generation < a.generation ∧
  ∀ g x, a.data.get? h0.slot = some (Entry.occupied g x) → h0.generation < g

lemma staleFree_step {T : Type} {h0 : Index} {a a' : Arena T}
    (hmax : h0.generation < USIZE_MAX)
    (hst : staleFree h0 a) (hs : Step a a') : staleFree h0 a' := by
  obtain ⟨hlt, hslot⟩ := hst
  have hbump : h0.generation < satAdd1 a.generation :=
    lt_satAdd1_of_le (le_of_lt hlt) hmax
  rcases step_shape hs with
    ⟨hd, hg⟩ | ⟨v, hd, hg⟩ | ⟨i, nx, hd, hg⟩ | ⟨i, v, hd, hg⟩ | ⟨i, v, hd, hg⟩
  all_goals refine ⟨?_, ?_⟩
  · rw [hg]; exact hlt
  · intro g x hget
    rw [hd] at hget
    exact hslot g x hget
  · rw [hg]; exact hlt
  · intro g x hget
    rw [hd] at hget
    rcases get?_append_single hget with hold | ⟨_, hnew⟩
    · exact hslot g x hold
    · injection hnew with hg2 hx2
      subst hg2
      exact hlt
  · rw [hg]; exact hbump
  · intro g x hget
    rw [hd] at hget
    rcases get?_set_cases hget with hold | ⟨_, hnew⟩
    · exact hslot g x hold
    · exact Entry.noConfusion hnew
  · rw [hg]; exact hlt
  · intro g x hget
    rw [hd] at hget
    rcases get?_set_cases hget with hold | ⟨_, hnew⟩
    · exact hslot g x hold
    · injection hnew with hg2 hx2
      subst hg2
      exact hlt
  · rw [hg]; exact hbump
  · intro g x hget
    rw [hd] at hget
    rcases get?_set_cases hget with hold | ⟨_, hnew⟩
    · exact hslot g x hold
    · injection hnew with hg2 hx2
      subst hg2
      exact hbump

lemma staleFree_reachableFrom {T : Type} {h0 : Index} {a b : Arena T}
    (hmax : h0.generation < USIZE_MAX)
    (hst : staleFree h0 a) (hr : ReachableFrom a b) : staleFree h0 b := by
  induction hr with
  | refl => exact hst
  | step _ hs ih => exact staleFree_step hmax ih hs

lemma get_eq_none_of_staleFree {T : Type} {h0 : Index} {a : Arena T}
    (hst : staleFree h0 a) : a.get h0 = none := by
  cases hget : a.data.get? h0.slot with
  | none => exact get_eq_none_of_get?_none hget
  | some e =>
      cases e with
      | vacant nx => exact get_eq_none_of_vacant hget
      | occupied g x =>
          rw [get_eq_of_occ hget]
          rw [if_neg]
          exact fun hEq => absurd (hEq ▸ hst.2 g x hget) (lt_irrefl g)

/-! ### A reachable state whose generation counter has saturated -/

/-- One-slot arena obtained from `new` by one `push` and `n` calls of
`set` over the occupied slot: the counter has been bumped `n` times. -/
def gArena (n : Nat) : Arena Unit :=
  { data := [Entry.occupied (min (1 + n) USIZE_MAX) ()],
    generation := min (1 + n) USIZE_MAX,
    free_head := none,
    count := 1 }

lemma gArena_zero : gArena 0 = ((Arena.new Unit).push ()).2 := by decide

lemma gArena_step (n : Nat) :
    (gArena n).set ⟨1, 0⟩ () = some (gArena (n + 1)) := by
  have hget : (gArena n).data.get? (0 : Nat) =
      some (Entry.occupied (min (1 + n) USIZE_MAX) ()) := rfl
  have harith : satAdd1 (min (1 + n) USIZE_MAX) = min (1 + (n + 1)) USIZE_MAX := by
    unfold satAdd1; omega
  rw [set_eq_occ hget]
  unfold gArena
  simp only [List.set]
  rw [harith]

lemma gArena_reachable (n : Nat) : Reachable (gArena n) := by
  induction n with
  | zero =>
      rw [gArena_zero]
      exact Reachable.step Reachable.new (Step.push (Arena.new Unit) ())
  | succ n ih =>
      exact Reachable.step ih (Step.set (gArena n) (gArena (n + 1)) ⟨1, 0⟩ () (gArena_step n))

/-- A reachable state whose counter and single stamp sit at `usize::MAX`. -/
def satStart : Arena Unit :=
  { data := [Entry.occupied USIZE_MAX ()],
    generation := USIZE_MAX,
    free_head := none,
    count := 1 }

/-- `satStart` after removing the live handle `⟨USIZE_MAX, 0⟩`. -/
def satVac : Arena Unit :=
  { data := [Entry.vacant none],
    generation := USIZE_MAX,
    free_head := some 0,
    count := 0 }

lemma satStart_eq : gArena (USIZE_MAX - 1) = satStart := by
  have harith : min (1 + (USIZE_MAX - 1)) USIZE_MAX = USIZE_MAX := by
    rw [usize_max_eq]; omega
  unfold gArena satStart
  rw [harith]

lemma satStart_reachable : Reachable satStart :=
  satStart_eq ▸ gArena_reachable (USIZE_MAX - 1)

/-! ### Small concrete reachable states used by several scenarios

Trace: `new`, `push 10` (handle `⟨1,0⟩`), `remove ⟨1,0⟩`, then either
`insert 20` (slot reuse, handle `⟨2,0⟩`), or `replace ⟨1,0⟩ 20` over the
vacant slot followed by `insert 30`; separately, `take ⟨1,0⟩` straight
after the push. -/

/-- State after `push 10`: slot 0 occupied at stamp 1. -/
def sPush : Arena Nat :=
  { data := [Entry.occupied 1 10], generation := 1, free_head := none,
    count := 1 }

/-- `sPush` after `remove ⟨1,0⟩`: slot 0 vacant, on the free list. -/
def sVac : Arena Nat :=
  { data := [Entry.vacant none], generation := 2, free_head := some 0,
    count := 0 }

/-- `sVac` after `insert 20`: slot 0 reused at stamp 2. -/
def sReuse : Arena Nat :=
  { data := [Entry.occupied 2 20], generation := 2, free_head := none,
    count := 1 }

/-- `sVac` after `replace ⟨1,0⟩ 20` over the vacant slot: slot 0 occupied
again but still linked from `free_head`. -/
def sReplV : Arena Nat :=
  { data := [Entry.occupied 2 20], generation := 2, free_head := some 0,
    count := 1 }

/-- `sReplV` after `insert 30`: the free head still pointed at the
occupied slot 0, so the insert overwrites it and double-counts. -/
def sDouble : Arena Nat :=
  { data := [Entry.occupied 2 30], generation := 2, free_head := none,
    count := 2 }

/-- `sPush` after `take ⟨1,0⟩`: slot 0 vacant but never linked into the
free list. -/
def sTakeLeak : Arena Nat :=
  { data := [Entry.vacant none], generation := 2, free_head := none,
    count := 0 }

lemma sPush_reachable : Reachable sPush := by
  have hE : ((Arena.new Nat).push 10).2 = sPush := by decide
  exact hE ▸ Reachable.step Reachable.new (Step.push (Arena.new Nat) 10)

lemma sVac_reachable : Reachable sVac :=
  Reachable.step sPush_reachable (Step.remove sPush sVac ⟨1, 0⟩ (by decide))

lemma sReuse_reachable : Reachable sReuse := by
  have hE : (sVac.insert 20).2 = sReuse := by decide
  exact hE ▸ Reachable.step sVac_reachable (Step.insert sVac 20)

lemma sReplV_reachable : Reachable sReplV :=
  Reachable.step sVac_reachable
    (Step.replace sVac sReplV ⟨1, 0⟩ ⟨2, 0⟩ 20 none (by decide))

lemma sDouble_reachable : Reachable sDouble := by
  have hE : (sReplV.insert 30).2 = sDouble := by decide
  exact hE ▸ Reachable.step sReplV_reachable (Step.insert sReplV 30)

/-- Two-slot arena: `new`, `push 10`, `push 20`. -/
def sTwo : Arena Nat :=
  { data := [Entry.occupied 1 10, Entry.occupied 1 20], generation := 1,
    free_head := none, count := 2 }

lemma sTakeLeak_reachable : Reachable sTakeLeak :=
  Reachable.step sPush_reachable
    (Step.take sPush sTakeLeak ⟨1, 0⟩ (some 10) (by decide))

/-- Both lookup paths validate identically. -/
lemma get_mut_eq_get {T : Type} (a : Arena T) (h : Index) :
    a.get_mut h = a.get h := rfl

/-! ## Claim C1 -/

/-- Claim C1 counterexample: `satStart` is reachable, the handle
`h0 = ⟨USIZE_MAX, 0⟩` is live there, and `remove h0` actually vacates
slot 0 (yielding `satVac`); yet in the subsequent reachable state
obtained by `insert ()` — which reoccupies slot 0 and issues a fresh
handle at that slot — `get h0` returns the new value, not absent: the
saturated counter re-stamps the slot with `h0`'s own generation. -/
theorem stale_handle_safety_counterexample :
    Reachable satStart ∧
    isLiveAt satStart ⟨USIZE_MAX, 0⟩ = true ∧
    satStart.remove ⟨USIZE_MAX, 0⟩ = some satVac ∧
    ReachableFrom satVac (satVac.insert ()).2 ∧
    ((satVac.insert ()).2).get ⟨USIZE_MAX, 0⟩ = some () :=
  ⟨satStart_reachable, by decide, by decide,
   ReachableFrom.step (ReachableFrom.refl satVac) (Step.insert satVac ()),
   by decide⟩

/-- Claim C1 (amended): for every reachable state `s` and handle `h0`
whose `remove` call actually vacates its slot, provided `h0.generation`
is below `usize::MAX` (true of every handle issued before the counter
saturates), `get h0` returns absent in every state reachable after the
removal, even after later inserts reoccupy the slot. -/
theorem stale_handle_safety_below_max {T : Type} {s s1 t : Arena T}
    {h0 : Index} (hreach : Reachable s) (hlive : isLiveAt s h0 = true)
    (hmax : h0.generation < USIZE_MAX)
    (hrem : s.remove h0 = some s1)
    (hfrom : ReachableFrom s1 t) : t.get h0 = none := by
  have hget : ∃ x, s.data.get? h0.slot =
      some (Entry.occupied h0.generation x) := by
    unfold isLiveAt at hlive
    cases hg : s.data.get? h0.slot with
    | none => rw [hg] at hlive; exact Bool.noConfusion hlive
    | some e =>
        cases e with
        | vacant nx => rw [hg] at hlive; exact Bool.noConfusion hlive
        | occupied g x =>
            rw [hg] at hlive
            have hEq : g = h0.generation := by simpa using hlive
            subst hEq
            exact ⟨x, rfl⟩
  obtain ⟨x, hocc⟩ := hget
  have hle : h0.generation ≤ s.generation :=
    ((reachable_inv hreach).2.2 h0.slot h0.generation x hocc).2
  rw [remove_eq_occ hocc, if_pos rfl] at hrem
  injection hrem with hrem
  have hstale : staleFree h0 s1 := by
    constructor
    · rw [← hrem]
      exact lt_satAdd1_of_le hle hmax
    · intro g x2 hget2
      rw [← hrem] at hget2
      have hlt : h0.slot < s.data.length := lt_of_get?_eq_some hocc
      have hv : (s.data.set h0.slot (Entry.vacant s.free_head)).get? h0.slot
          = some (Entry.vacant s.free_head) := List.get?_set_eq_of_lt _ hlt
      rw [hv] at hget2
      injection hget2 with hget2
      exact Entry.noConfusion hget2
  exact get_eq_none_of_staleFree (staleFree_reachableFrom hmax hstale hfrom)

/-- Claim C1 witness: after `push 10` the live handle `⟨1,0⟩` is removed
and stays absent. -/
theorem stale_handle_safety_below_max_witness : sVac.get ⟨1, 0⟩ = none :=
  stale_handle_safety_below_max sPush_reachable (by decide) (by decide)
    (by decide) (ReachableFrom.refl sVac)

/-! ## Claim C2 -/

/-- Claim C2 (code bug): in the reachable state `sReuse` — built by
`push 10` issuing `⟨1,0⟩`, `remove ⟨1,0⟩`, `insert 20` issuing `⟨2,0⟩` —
the handle `⟨1,0⟩` is stale (`get` reports absent), yet `take ⟨1,0⟩`
does not validate the stamp: it moves out and returns `20`, the value
owned by the fresh handle, instead of reporting absent. -/
theorem take_steals_fresh_value :
    Reachable sReuse ∧
    sReuse.get ⟨1, 0⟩ = none ∧
    sReuse.take ⟨1, 0⟩ =
      some ({ data := [Entry.vacant none], generation := 3,
              free_head := none, count := 0 }, some 20) :=
  ⟨sReuse_reachable, by decide, by decide⟩

/-! ## Claim C3 -/

/-- Claim C3 (code bug): `sDouble` is reachable from `new` by
`push 10`, `remove ⟨1,0⟩`, `replace ⟨1,0⟩ 20` (over the vacant slot,
which stays linked from `free_head`), `insert 30` (which pops that head
and overwrites the occupied slot); there `len` is 2 although only one
slot is occupied, refuting the count invariant. -/
theorem count_invariant_violation :
    Reachable sDouble ∧ sDouble.len = 2 ∧ occupiedCount sDouble = 1 :=
  ⟨sDouble_reachable, by decide, by decide⟩

/-! ## Claim C4 -/

/-- Claim C4 (code bug): `sTakeLeak` is reachable from `new` by
`push 10` then `take ⟨1,0⟩`; slot 0 is vacant there, yet the free list
traversed from `free_head` is empty — `take` never links the vacated
slot, so the traversal does not visit every vacant slot. -/
theorem free_list_invariant_violation :
    Reachable sTakeLeak ∧
    sTakeLeak.data.get? 0 = some (Entry.vacant none) ∧
    sTakeLeak.freeChain = [] :=
  ⟨sTakeLeak_reachable, by decide, by decide⟩

/-! ## Claim C5 -/

/-- Claim C5 counterexample: in the reachable state `sVac` the free list
is non-empty, and `insert 20` occupies the free slot — a mutating
operation that changes the slot's occupancy — yet the generation counter
stays at 2 instead of increasing by exactly one. -/
theorem insert_free_slot_no_bump :
    Reachable sVac ∧ sVac.free_head = some 0 ∧
    (sVac.insert 20).2.generation = sVac.generation ∧
    (sVac.insert 20).2.generation ≠ sVac.generation + 1 :=
  ⟨sVac_reachable, by decide, by decide, by decide⟩

/-- Claim C5 (amended): the counter never decreases (`satAdd1` is
monotone below `usize::MAX`), and it is bumped by `satAdd1` exactly on
`remove` of a live handle, `take` of an occupied slot, and
`replace`/`set` over an occupied slot; `push`, `insert`, and
`replace`/`set` over a vacant slot leave it unchanged. -/
theorem generation_evolution {T : Type} (a : Arena T) (h : Index) (v : T) :
    ((a.push v).2.generation = a.generation) ∧
    ((a.insert v).2.generation = a.generation) ∧
    (∀ a2, a.remove h = some a2 →
      a2.generation =
        if isLiveAt a h then satAdd1 a.generation else a.generation) ∧
    (∀ a2 r, a.take h = some (a2, r) →
      a2.generation =
        if isOccAt a h.slot then satAdd1 a.generation else a.generation) ∧
    (∀ a2 h2 r, a.replace h v = some (a2, h2, r) →
      a2.generation =
        if isOccAt a h.slot then satAdd1 a.generation else a.generation) ∧
    (∀ a2, a.set h v = some a2 →
      a2.generation =
        if isOccAt a h.slot then satAdd1 a.generation else a.generation) ∧
    (a.generation ≤ USIZE_MAX → a.generation ≤ satAdd1 a.generation) := by
  refine ⟨rfl, ?_, ?_, ?_, ?_, ?_, fun hle => le_satAdd1 hle⟩
  · cases hfh : a.free_head with
    | none => rw [insert_eq_of_no_free v hfh]; exact rfl
    | some pos => rw [insert_eq_of_free v hfh]
  · intro a2 hx
    cases hget : a.data.get? h.slot with
    | none => rw [remove_eq_none hget] at hx; exact Option.noConfusion hx
    | some e =>
        cases e with
        | vacant nx =>
            rw [remove_eq_vacant hget] at hx
            injection hx with hx
            subst hx
            rw [isLiveAt_of_vacant hget]
            simp
        | occupied g x =>
            rw [remove_eq_occ hget] at hx
            by_cases hgen : h.generation = g
            · rw [if_pos hgen] at hx
              injection hx with hx
              subst hx
              rw [isLiveAt_of_occ hget]
              simp [hgen]
            · rw [if_neg hgen] at hx
              injection hx with hx
              subst hx
              have hne : ¬ g = h.generation := fun hEq => hgen hEq.symm
              rw [isLiveAt_of_occ hget]
              simp [hne]
  · intro a2 r hx
    cases hget : a.data.get? h.slot with
    | none => rw [take_eq_none hget] at hx; exact Option.noConfusion hx
    | some e =>
        cases e with
        | vacant nx =>
            rw [take_eq_vacant hget] at hx
            injection hx with hx
            injection hx with hx1 hx2
            subst hx1
            rw [isOccAt_of_vacant hget]
            simp
        | occupied g x =>
            rw [take_eq_occ hget] at hx
            injection hx with hx
            injection hx with hx1 hx2
            subst hx1
            rw [isOccAt_of_occ hget]
            simp
  · intro a2 h2 r hx
    cases hget : a.data.get? h.slot with
    | none => rw [replace_eq_none hget] at hx; exact Option.noConfusion hx
    | some e =>
        cases e with
        | vacant nx =>
            rw [replace_eq_vacant hget] at hx
            injection hx with hx
            injection hx with hx1 hx2
            subst hx1
            rw [isOccAt_of_vacant hget]
            simp
        | occupied g x =>
            rw [replace_eq_occ hget] at hx
            injection hx with hx
            injection hx with hx1 hx2
            subst hx1
            rw [isOccAt_of_occ hget]
            simp
  · intro a2 hx
    cases hget : a.data.get? h.slot with
    | none => rw [set_eq_none hget] at hx; exact Option.noConfusion hx
    | some e =>
        cases e with
        | vacant nx =>
            rw [set_eq_vacant hget] at hx
            injection hx with hx
            subst hx
            rw [isOccAt_of_vacant hget]
            simp
        | occupied g x =>
            rw [set_eq_occ hget] at hx
            injection hx with hx
            subst hx
            rw [isOccAt_of_occ hget]
            simp

/-- Claim C5 witness: removing the live handle from `sPush` bumps the
counter as the amended statement predicts. -/
theorem generation_evolution_witness :
    sVac.generation =
      if isLiveAt sPush ⟨1, 0⟩ then satAdd1 sPush.generation
      else sPush.generation :=
  (generation_evolution sPush ⟨1, 0⟩ 10).2.2.1 sVac (by decide)

/-! ## Claim C6 -/

/-- Claim C6 counterexample: in the reachable state `sPush` slot 0 is
occupied and the handle `h0 = ⟨2, 0⟩` is in bounds, but
`replace h0 20` returns the handle `⟨2, 0⟩` itself: the new handle's
generation equals `h0.generation`, and afterwards `get h0` yields the
new value instead of absent. -/
theorem replace_stale_same_generation :
    Reachable sPush ∧ isOccAt sPush 0 = true ∧
    sPush.replace ⟨2, 0⟩ 20 = some (sReuse, ⟨2, 0⟩, some 10) ∧
    sReuse.get ⟨2, 0⟩ = some 20 :=
  ⟨sPush_reachable, by decide, by decide, by decide⟩

/-- Claim C6 (amended): for an in-bounds handle `h0` over an occupied
slot, `replace h0 v` returns the previous value and the handle
`⟨satAdd1 a.generation, h0.slot⟩`; provided `h0.generation` differs from
that freshly bumped stamp (true of every handle the arena issued while
the counter is below `usize::MAX`), the new handle's generation differs
from `h0`'s, `get` at the new handle yields `v`, and `get h0` yields
absent. -/
theorem replace_occupied_spec {T : Type} (a : Arena T) (h0 : Index) (v : T)
    (g0 : Nat) (prev : T)
    (hocc : a.data.get? h0.slot = some (Entry.occupied g0 prev))
    (hne : h0.generation ≠ satAdd1 a.generation) :
    ∀ a2 h1 r, a.replace h0 v = some (a2, h1, r) →
      r = some prev ∧ h1.slot = h0.slot ∧
      h1.generation = satAdd1 a.generation ∧
      h1.generation ≠ h0.generation ∧
      a2.get h1 = some v ∧ a2.get h0 = none := by
  intro a2 h1 r hx
  rw [replace_eq_occ hocc] at hx
  injection hx with hx
  injection hx with hx1 hx2
  injection hx2 with hx2 hx3
  subst hx1
  subst hx2
  subst hx3
  have hlt : h0.slot < a.data.length := lt_of_get?_eq_some hocc
  have hget2 : (a.data.set h0.slot
        (Entry.occupied (satAdd1 a.generation) v)).get? h0.slot
      = some (Entry.occupied (satAdd1 a.generation) v) :=
    List.get?_set_eq_of_lt _ hlt
  refine ⟨rfl, rfl, rfl, fun hEq => hne hEq.symm, ?_, ?_⟩
  · unfold Arena.get
    rw [hget2]
    simp
  · unfold Arena.get
    rw [hget2]
    simp [hne]

/-- Claim C6 witness: replacing through the live handle `⟨1,0⟩` of
`sPush` behaves as specified. -/
theorem replace_occupied_spec_witness :
    some 10 = some 10 ∧ (⟨2, 0⟩ : Index).slot = (⟨1, 0⟩ : Index).slot ∧
    (⟨2, 0⟩ : Index).generation = satAdd1 sPush.generation ∧
    (⟨2, 0⟩ : Index).generation ≠ (⟨1, 0⟩ : Index).generation ∧
    sReuse.get ⟨2, 0⟩ = some 20 ∧ sReuse.get ⟨1, 0⟩ = none :=
  replace_occupied_spec sPush ⟨1, 0⟩ 20 1 10 (by decide) (by decide)
    sReuse ⟨2, 0⟩ (some 10) (by decide)

/-! ## Claim C7 -/

/-- Claim C7: for every arena and in-bounds handle, removing twice is
the same as removing once — the second call is a silent no-op on the
whole observable state (slots, free list, counter, count). -/
theorem remove_idempotent {T : Type} (a : Arena T) (h : Index)
    (hlt : h.slot < a.data.length) :
    (a.remove h).bind (fun b => b.remove h) = a.remove h := by
  obtain ⟨e, hget⟩ : ∃ e, a.data.get? h.slot = some e := by
    cases hg : a.data.get? h.slot with
    | none =>
        exfalso
        rw [List.get?_eq_none] at hg
        omega
    | some e => exact ⟨e, rfl⟩
  cases e with
  | vacant nx =>
      rw [remove_eq_vacant hget, Option.some_bind]
      exact remove_eq_vacant hget
  | occupied g x =>
      by_cases hgen : h.generation = g
      · rw [remove_eq_occ hget, if_pos hgen, Option.some_bind]
        have hget2 : (a.data.set h.slot (Entry.vacant a.free_head)).get? h.slot
            = some (Entry.vacant a.free_head) := List.get?_set_eq_of_lt _ hlt
        exact remove_eq_vacant hget2
      · rw [remove_eq_occ hget, if_neg hgen, Option.some_bind]
        rw [remove_eq_occ hget, if_neg hgen]

/-- Claim C7 witness: double removal on `sPush` with its live handle. -/
theorem remove_idempotent_witness :
    (sPush.remove ⟨1, 0⟩).bind (fun b => b.remove ⟨1, 0⟩) =
      sPush.remove ⟨1, 0⟩ :=
  remove_idempotent sPush ⟨1, 0⟩ (by decide)

/-! ## Claim C8 -/

/-- Claim C8: with a slot index at or beyond the store's length, the
read paths `get` and `get_mut` return absent, while `remove`, `take`,
`replace` and `set` panic (modelled by `none`, producing no successor
state — in the source the unchecked indexing precedes every write). -/
theorem out_of_range_asymmetry {T : Type} (a : Arena T) (h : Index) (v : T)
    (hoob : a.data.length ≤ h.slot) :
    a.get h = none ∧ a.get_mut h = none ∧ a.remove h = none ∧
    a.take h = none ∧ a.replace h v = none ∧ a.set h v = none := by
  have hget : a.data.get? h.slot = none := List.get?_len_le hoob
  exact ⟨get_eq_none_of_get?_none hget,
    (get_mut_eq_get a h).trans (get_eq_none_of_get?_none hget),
    remove_eq_none hget, take_eq_none hget, replace_eq_none hget,
    set_eq_none hget⟩

/-- Claim C8 witness: slot 5 of the empty arena. -/
theorem out_of_range_asymmetry_witness :
    (Arena.new Nat).get ⟨1, 5⟩ = none ∧
    (Arena.new Nat).get_mut ⟨1, 5⟩ = none ∧
    (Arena.new Nat).remove ⟨1, 5⟩ = none ∧
    (Arena.new Nat).take ⟨1, 5⟩ = none ∧
    (Arena.new Nat).replace ⟨1, 5⟩ 7 = none ∧
    (Arena.new Nat).set ⟨1, 5⟩ 7 = none :=
  out_of_range_asymmetry (Arena.new Nat) ⟨1, 5⟩ 7 (by decide)

/-! ## Claim C9 -/

/-- Claim C9: `get2_mut` panics (`none`) exactly when the two handles
name the same slot — so it never returns two usable references to one
value — and with distinct slots each component is validated
independently, exactly as `get_mut`. -/
theorem get2_mut_spec {T : Type} (arena : Arena T) (a b : Index) :
    (arena.get2_mut a b = none ↔ a.slot = b.slot) ∧
    (∀ p, arena.get2_mut a b = some p → a.slot ≠ b.slot) ∧
    (a.slot ≠ b.slot →
      arena.get2_mut a b = some (arena.get_mut a, arena.get_mut b)) := by
  unfold Arena.get2_mut
  by_cases hs : a.slot = b.slot
  · rw [if_pos hs]
    exact ⟨⟨fun _ => hs, fun _ => rfl⟩,
      fun p hp => Option.noConfusion hp, fun hne => absurd hs hne⟩
  · rw [if_neg hs]
    exact ⟨⟨fun hc => Option.noConfusion hc, fun hEq => absurd hEq hs⟩,
      fun p _ => hs, fun _ => rfl⟩

/-- Claim C9 witness: two distinct live slots of a two-element arena. -/
theorem get2_mut_spec_witness :
    sTwo.get2_mut ⟨1, 0⟩ ⟨1, 1⟩ =
      some (sTwo.get_mut ⟨1, 0⟩, sTwo.get_mut ⟨1, 1⟩) :=
  (get2_mut_spec sTwo ⟨1, 0⟩ ⟨1, 1⟩).2.2 (by decide)

/-! ## Claim C10 -/

/-- Claim C10: in every reachable state the counter sits in
`[1, usize::MAX]` and every stamp in an occupied slot is a valid nonzero
value bounded by `usize::MAX`; once the counter reaches the maximum,
every further operation leaves it pinned there (`satAdd1` saturates). -/
theorem generation_saturating_behaviour {T : Type} (s : Arena T)
    (hreach : Reachable s) :
    (1 ≤ s.generation ∧ s.generation ≤ USIZE_MAX) ∧
    (∀ i g x, s.data.get? i = some (Entry.occupied g x) →
      1 ≤ g ∧ g ≤ USIZE_MAX) ∧
    (s.generation = USIZE_MAX → ∀ s2, Step s s2 →
      s2.generation = USIZE_MAX) ∧
    satAdd1 USIZE_MAX = USIZE_MAX := by
  obtain ⟨h1, h2, h3⟩ := reachable_inv hreach
  refine ⟨⟨h1, h2⟩, ?_, ?_, satAdd1_max⟩
  · intro i g x hget
    have hb := h3 i g x hget
    exact ⟨hb.1, le_trans hb.2 h2⟩
  · intro hsat s2 hs
    rcases step_shape hs with
      ⟨_, hg⟩ | ⟨v, _, hg⟩ | ⟨i, nx, _, hg⟩ | ⟨i, v, _, hg⟩ | ⟨i, v, _, hg⟩
    · rw [hg, hsat]
    · rw [hg, hsat]
    · rw [hg, hsat, satAdd1_max]
    · rw [hg, hsat]
    · rw [hg, hsat, satAdd1_max]

/-- Claim C10 witness: the empty arena. -/
theorem generation_saturating_behaviour_witness :
    (1 ≤ (Arena.new Nat).generation ∧
      (Arena.new Nat).generation ≤ USIZE_MAX) ∧
    (∀ i g x, (Arena.new Nat).data.get? i = some (Entry.occupied g x) →
      1 ≤ g ∧ g ≤ USIZE_MAX) ∧
    ((Arena.new Nat).generation = USIZE_MAX → ∀ s2, Step (Arena.new Nat) s2 →
      s2.generation = USIZE_MAX) ∧
    satAdd1 USIZE_MAX = USIZE_MAX :=
  generation_saturating_behaviour (Arena.new Nat) Reachable.new

end ArenaSpec
